import Mathlib

/-!
Verification of the clinical-trial cell-count analytics program.

The program stores four relational tables (projects, subjects, samples,
cell_counts) loaded once from a CSV file, and derives: a per-sample
population frequency table, a responder-vs-non-responder Mann-Whitney
significance table, baseline cohort counts, and one filtered mean.

The embedding below models the tables as lists of records, SQL inner joins
as nested `filter`/`flatMap`, polars `group_by`+`join` as a per-key sum,
polars `unique` as `List.dedup`, and polars `sort` as an insertion sort
(a stable comparison sort; the sort of the source is only observed through
sortedness and row multiset, which any comparison sort realises).

Numeric values are exact rationals.  Polars divides two integer columns as
floats, giving NaN for 0/0 and signed infinities for nonzero/0; the type
`PVal` mirrors exactly that.  `round(x, d)` is modelled as round-half-up to
`d` decimals on rationals (no statement below depends on a tie case of
float rounding).  The Mann-Whitney U computation itself lives in scipy,
outside this repository, and is floating point; it is therefore a
parameter `mw` of the embedded `get_significance_tests`, while the
behaviour of the call site that the repository does fix (scipy raises
ValueError on an empty sample, aborting the whole loop) is modelled in
`mannwhitneyuCall`.
-/

attribute [local semireducible] Rat.mul Rat.add Rat.inv

/-- Byte/codepoint lexicographic order on character lists, as polars and
sqlite compare strings. -/
def charsLe : List Char → List Char → Bool
  | [], _ => true
  | _ :: _, [] => false
  | a :: as, b :: bs =>
    if a.toNat < b.toNat then true
    else if b.toNat < a.toNat then false
    else charsLe as bs

/-- Lexicographic `≤` on strings. -/
def strLe (a b : String) : Bool := charsLe a.data b.data

/-- Strict lexicographic `<` on strings. -/
def strLtB (a b : String) : Bool := strLe a b && !(strLe b a)

/-- `round(q, d)`: round to `d` decimal places (half up, exact rationals). -/
def roundQ (d : ℕ) (q : ℚ) : ℚ :=
  let s : ℚ := q * (10 : ℚ) ^ d
  ((Int.fdiv (2 * s.num + (s.den : ℤ)) (2 * (s.den : ℤ)) : ℤ) : ℚ) / (10 : ℚ) ^ d

/-- A float value as produced by polars integer-column division: either an
ordinary (rational) value, or NaN / +inf / -inf. -/
inductive PVal where
  | num (q : ℚ)
  | nan
  | inf
  | ninf
deriving DecidableEq, Repr, Inhabited

/-- Float rounding: finite values round, NaN and infinities are fixed. -/
def PVal.roundP (d : ℕ) : PVal → PVal
  | num q => num (roundQ d q)
  | nan => nan
  | inf => inf
  | ninf => ninf

/-- Float `<`: any comparison with NaN is false. -/
def PVal.lt : PVal → PVal → Bool
  | num a, num b => decide (a < b)
  | ninf, num _ => true
  | num _, inf => true
  | ninf, inf => true
  | _, _ => false

/-- `count / total * 100`, then `.round(2)`, under polars float-division
semantics for integer columns (`k/0` is NaN for `k = 0`, else a signed
infinity). -/
def pct (c t : ℤ) : PVal :=
  if t = 0 then (if c = 0 then .nan else if 0 < c then .inf else .ninf)
  else .num (roundQ 2 ((c : ℚ) / (t : ℚ) * 100))

/- ### The data model (database.py) -/

structure Subject where
  id : String
  project_id : String
  condition : String
  age : ℤ
  sex : String
  treatment : Option String
  response : Option String
deriving DecidableEq, Repr, Inhabited

structure Sample where
  id : String
  subject_id : String
  sample_type : String
  time_from_treatment_start : ℤ
deriving DecidableEq, Repr, Inhabited

structure CellCount where
  sample_id : String
  population : String
  count : ℤ
deriving DecidableEq, Repr, Inhabited

/-- The four tables of the store (`projects` rows carry only their id). -/
structure DB where
  projects : List String
  subjects : List Subject
  samples : List Sample
  cell_counts : List CellCount
deriving DecidableEq, Repr, Inhabited

/-- The store right after `init_db`: empty tables. -/
def emptyDB : DB := ⟨[], [], [], []⟩

/- ### get_frequency_table (analysis.py) -/

/-- One row of the SQL join of cell_counts with samples and subjects. -/
structure JRow where
  sample_id : String
  population : String
  count : ℤ
  project_id : String
  condition : String
  treatment : Option String
  sample_type : String
deriving DecidableEq, Repr, Inhabited

/-- `SELECT cc.sample_id, cc.population, cc.count, sub.project_id,
sub.condition, sub.treatment, s.sample_type FROM cell_counts cc JOIN
samples s ON cc.sample_id = s.id JOIN subjects sub ON s.subject_id =
sub.id`. -/
def joinedRows (db : DB) : List JRow :=
  db.cell_counts.flatMap fun cc =>
    (db.samples.filter fun s => decide (s.id = cc.sample_id)).flatMap fun s =>
      (db.subjects.filter fun sub => decide (sub.id = s.subject_id)).map fun sub =>
        ⟨cc.sample_id, cc.population, cc.count, sub.project_id, sub.condition,
          sub.treatment, s.sample_type⟩

/-- `group_by("sample_id").agg(col("count").sum())`, looked up through the
subsequent `join(..., on="sample_id")` (group keys are distinct, so the
join attaches to each row the sum over all rows sharing its sample id). -/
def totalFor (rows : List JRow) (sid : String) : ℤ :=
  ((rows.filter fun r => decide (r.sample_id = sid)).map (·.count)).sum

/-- One output row of the frequency table. -/
structure FreqRow where
  sample : String
  project_id : String
  condition : String
  treatment : Option String
  sample_type : String
  total_count : ℤ
  population : String
  count : ℤ
  percentage : PVal
deriving DecidableEq, Repr, Inhabited

/-- The `with_columns`/`select` step applied to one joined row. -/
def freqRowOf (rows : List JRow) (r : JRow) : FreqRow :=
  ⟨r.sample_id, r.project_id, r.condition, r.treatment, r.sample_type,
    totalFor rows r.sample_id, r.population, r.count,
    pct r.count (totalFor rows r.sample_id)⟩

/-- `.sort("sample", "population")` comparison. -/
def freqLe (a b : FreqRow) : Bool :=
  if a.sample = b.sample then strLe a.population b.population
  else strLe a.sample b.sample

def get_frequency_table (db : DB) : List FreqRow :=
  List.insertionSort (fun a b => freqLe a b = true)
    ((joinedRows db).map (freqRowOf (joinedRows db)))

/- ### get_responder_frequencies (analysis.py) -/

/-- A joined row of the melanoma/PBMC/miraclib query, before totals. -/
structure RJRow where
  sample_id : String
  population : String
  count : ℤ
  response : Option String
deriving DecidableEq, Repr, Inhabited

/-- The SQL query of `get_responder_frequencies`: the same double join,
restricted to condition melanoma, sample_type PBMC and treatment
miraclib (a NULL treatment never matches the equality). -/
def respJoined (db : DB) : List RJRow :=
  db.cell_counts.flatMap fun cc =>
    (db.samples.filter fun s =>
        decide (s.id = cc.sample_id ∧ s.sample_type = "PBMC")).flatMap fun s =>
      (db.subjects.filter fun sub =>
          decide (sub.id = s.subject_id ∧ sub.condition = "melanoma" ∧
            sub.treatment = some "miraclib")).map fun sub =>
        ⟨cc.sample_id, cc.population, cc.count, sub.response⟩

def rtotalFor (rows : List RJRow) (sid : String) : ℤ :=
  ((rows.filter fun r => decide (r.sample_id = sid)).map (·.count)).sum

/-- One output row: `select("sample_id", "population", "percentage",
"response")`. -/
structure RespRow where
  sample_id : String
  population : String
  percentage : PVal
  response : Option String
deriving DecidableEq, Repr, Inhabited

def respLe (a b : RespRow) : Bool :=
  if a.sample_id = b.sample_id then strLe a.population b.population
  else strLe a.sample_id b.sample_id

def get_responder_frequencies (db : DB) : List RespRow :=
  List.insertionSort (fun a b => respLe a b = true)
    ((respJoined db).map fun r =>
      ⟨r.sample_id, r.population, pct r.count (rtotalFor (respJoined db) r.sample_id),
        r.response⟩)

/- ### get_significance_tests (analysis.py) -/

/-- One output row of the significance table. -/
structure SigRow where
  population : String
  u_statistic : PVal
  p_value : PVal
  significant : Bool
deriving DecidableEq, Repr, Inhabited

/-- `df["population"].unique().sort().to_list()`. -/
def sortedPops (rows : List RespRow) : List String :=
  List.insertionSort (fun a b => strLe a b = true) ((rows.map (·.population)).dedup)

/-- `pop_df.filter(col("response") == resp)["percentage"].to_list()` where
`pop_df = df.filter(col("population") == pop)`; a NULL response never
compares equal. -/
def grp (rows : List RespRow) (pop resp : String) : List PVal :=
  (rows.filter fun r => decide (r.population = pop ∧ r.response = some resp)).map
    (·.percentage)

/-- The scipy error message for an empty sample, not naming any population. -/
def scipyEmptyMsg : String := "x and y must be of nonzero size"

/-- The call `mannwhitneyu(responders, non_responders,
alternative="two-sided")`: scipy raises ValueError when either sample is
empty; otherwise it returns a U statistic and a p-value, here supplied by
the parameter `mw` (the numeric test itself is external floating-point
code, not part of this repository). -/
def mannwhitneyuCall (mw : List PVal → List PVal → PVal × PVal)
    (x y : List PVal) : Except String (PVal × PVal) :=
  if x = [] ∨ y = [] then .error scipyEmptyMsg else .ok (mw x y)

/-- The `for pop in ...` loop: an uncaught exception aborts the whole
function, otherwise one row per population is appended in order. -/
def sigLoop (mw : List PVal → List PVal → PVal × PVal) (rows : List RespRow) :
    List String → Except String (List SigRow)
  | [] => .ok []
  | pop :: ps =>
    match mannwhitneyuCall mw (grp rows pop "yes") (grp rows pop "no") with
    | .error e => .error e
    | .ok sp =>
      match sigLoop mw rows ps with
      | .error e => .error e
      | .ok rs =>
        .ok (⟨pop, sp.1.roundP 2, sp.2.roundP 4, PVal.lt sp.2 (.num (1 / 20))⟩ :: rs)

def get_significance_tests (mw : List PVal → List PVal → PVal × PVal)
    (rows : List RespRow) : Except String (List SigRow) :=
  sigLoop mw rows (sortedPops rows)

/- ### get_baseline_samples and the Subset Analysis tab (main.py) -/

structure BaseRow where
  sample_id : String
  project_id : String
  subject_id : String
  response : Option String
  sex : String
deriving DecidableEq, Repr, Inhabited

/-- `SELECT s.id, sub.project_id, sub.id, sub.response, sub.sex FROM
samples s JOIN subjects sub ON s.subject_id = sub.id WHERE melanoma ∧ PBMC
∧ time_from_treatment_start = 0 ∧ miraclib`. -/
def get_baseline_samples (db : DB) : List BaseRow :=
  db.samples.flatMap fun s =>
    if s.sample_type = "PBMC" ∧ s.time_from_treatment_start = 0 then
      (db.subjects.filter fun sub =>
          decide (sub.id = s.subject_id ∧ sub.condition = "melanoma" ∧
            sub.treatment = some "miraclib")).map fun sub =>
        ⟨s.id, sub.project_id, sub.id, sub.response, sub.sex⟩
    else []

/-- `baseline.select("subject_id", "response", "sex").unique()`. -/
def tab3Subjects (db : DB) : List (String × Option String × String) :=
  ((get_baseline_samples db).map fun r => (r.subject_id, r.response, r.sex)).dedup

/-- `group_by(key).agg(count)`: one pair (key value, group size) per
distinct key. -/
def groupCount {α : Type} [DecidableEq α] (l : List α) : List (α × ℕ) :=
  l.dedup.map fun v => (v, l.count v)

/-- `subjects.group_by("response").agg(col("subject_id").count())`. -/
def response_counts (db : DB) : List (Option String × ℕ) :=
  groupCount ((tab3Subjects db).map fun t => t.2.1)

/-- `subjects.group_by("sex").agg(col("subject_id").count())`. -/
def sex_counts (db : DB) : List (String × ℕ) :=
  groupCount ((tab3Subjects db).map fun t => t.2.2)

/- ### get_avg_bcell_male_responders (analysis.py) -/

/-- The `cc.count` column of the b_cell / melanoma / male / responder /
baseline query of `get_avg_bcell_male_responders`. -/
def bcellCounts (db : DB) : List ℤ :=
  db.cell_counts.flatMap fun cc =>
    if cc.population = "b_cell" then
      (db.samples.filter fun s =>
          decide (s.id = cc.sample_id ∧ s.time_from_treatment_start = 0)).flatMap fun s =>
        (db.subjects.filter fun sub =>
            decide (sub.id = s.subject_id ∧ sub.condition = "melanoma" ∧
              sub.sex = "M" ∧ sub.response = some "yes")).map fun _ => cc.count
    else []

/-- Python `round(None, 2)` raises TypeError; the message does not matter
to any claim. -/
def typeErrorMsg : String := "round of None is undefined"

/-- `round(df["count"].mean(), 2)`: polars `mean` of an empty series is
None, and `round(None, 2)` raises; otherwise the arithmetic mean is
rounded to 2 decimals. -/
def pyRound2Mean (cs : List ℤ) : Except String ℚ :=
  match cs with
  | [] => .error typeErrorMsg
  | _ => .ok (roundQ 2 ((cs.map fun c => (c : ℚ)).sum / (cs.length : ℚ)))

def get_avg_bcell_male_responders (db : DB) : Except String ℚ :=
  pyRound2Mean (bcellCounts db)

/- ### load_csv (database.py) -/

/-- One row of the ingested CSV: metadata columns plus one column per
population of `CELL_POPULATIONS`. -/
structure CsvRow where
  project : String
  subject : String
  condition : String
  age : ℤ
  sex : String
  treatment : Option String
  response : Option String
  sample : String
  sample_type : String
  time_from_treatment_start : ℤ
  b_cell : ℤ
  cd8_t_cell : ℤ
  cd4_t_cell : ℤ
  nk_cell : ℤ
  monocyte : ℤ
deriving DecidableEq, Repr, Inhabited

def CELL_POPULATIONS : List String :=
  ["b_cell", "cd8_t_cell", "cd4_t_cell", "nk_cell", "monocyte"]

/-- The Subject built from one CSV row (the columns of
`df.select("subject", "project", "condition", "age", "sex", "treatment",
"response")`). -/
def subjOfRow (r : CsvRow) : Subject :=
  ⟨r.subject, r.project, r.condition, r.age, r.sex, r.treatment, r.response⟩

/-- The Sample built from one CSV row. -/
def sampOfRow (r : CsvRow) : Sample :=
  ⟨r.sample, r.subject, r.sample_type, r.time_from_treatment_start⟩

def popCount (p : String) (r : CsvRow) : ℤ :=
  if p = "b_cell" then r.b_cell
  else if p = "cd8_t_cell" then r.cd8_t_cell
  else if p = "cd4_t_cell" then r.cd4_t_cell
  else if p = "nk_cell" then r.nk_cell
  else r.monocyte

/-- `df.select("sample", *CELL_POPULATIONS).unpivot(...)`: one CellCount
per input row and population column, with no deduplication. -/
def ccBatch (df : List CsvRow) : List CellCount :=
  CELL_POPULATIONS.flatMap fun p => df.map fun r => ⟨r.sample, p, popCount p r⟩

/-- The sqlite error raised at commit on a duplicate primary key. -/
def integrityMsg : String := "UNIQUE constraint failed"

/-- `session.add` of a batch into a table with a string primary key,
resolved at `session.commit()`: the first inserted row whose key already
exists (in the table or earlier in the batch) aborts the transaction. -/
def insertAll (table : List α) (key : α → String) : List α → Except String (List α)
  | [] => .ok table
  | a :: rest =>
    if (table.map key).contains (key a) then .error integrityMsg
    else insertAll (table ++ [a]) key rest

/-- `load_csv`: the four batches are flushed in dependency order inside
one transaction; any integrity error rolls the whole load back (the
store of the caller is unchanged exactly when the result is an error).
CellCount rows have an autoincrement key and never conflict. -/
def load_csv (store : DB) (df : List CsvRow) : Except String DB :=
  match insertAll store.projects (fun p => p) ((df.map (·.project)).dedup) with
  | .error e => .error e
  | .ok projects =>
    match insertAll store.subjects Subject.id ((df.map subjOfRow).dedup) with
    | .error e => .error e
    | .ok subjects =>
      match insertAll store.samples Sample.id ((df.map sampOfRow).dedup) with
      | .error e => .error e
      | .ok samples =>
        .ok ⟨projects, subjects, samples, store.cell_counts ++ ccBatch df⟩

/- ### Order lemmas for the string comparisons used by `sort` -/

theorem charsLe_total : ∀ as bs : List Char, charsLe as bs = true ∨ charsLe bs as = true := by
  intro as
  induction as with
  | nil => intro bs; left; rfl
  | cons a as ih =>
    intro bs
    cases bs with
    | nil => right; rfl
    | cons b bs =>
      simp only [charsLe]
      rcases Nat.lt_trichotomy a.toNat b.toNat with h | h | h
      · left; simp [h]
      · have h1 : ¬ a.toNat < b.toNat := by omega
        have h2 : ¬ b.toNat < a.toNat := by omega
        rcases ih bs with h3 | h3
        · left; simp [h1, h2, h3]
        · right; simp [h1, h2, h3]
      · right; simp [h, Nat.lt_asymm h]

theorem charsLe_trans : ∀ as bs cs : List Char,
    charsLe as bs = true → charsLe bs cs = true → charsLe as cs = true := by
  intro as
  induction as with
  | nil => intro bs cs _ _; rfl
  | cons a as ih =>
    intro bs cs hab hbc
    cases bs with
    | nil => simp [charsLe] at hab
    | cons b bs =>
      cases cs with
      | nil => simp [charsLe] at hbc
      | cons c cs =>
        simp only [charsLe] at hab hbc ⊢
        by_cases h1 : a.toNat < b.toNat
        · simp [h1] at hab
          by_cases h2 : b.toNat < c.toNat
          · have : a.toNat < c.toNat := by omega
            simp [this]
          · by_cases h3 : c.toNat < b.toNat
            · simp [h2, h3] at hbc
            · have hac : a.toNat < c.toNat := by omega
              simp [hac]
        · by_cases h4 : b.toNat < a.toNat
          · simp [h1, h4] at hab
          · have heq : a.toNat = b.toNat := by omega
            simp [h1, h4] at hab
            by_cases h2 : b.toNat < c.toNat
            · have : a.toNat < c.toNat := by omega
              simp [this]
            · by_cases h3 : c.toNat < b.toNat
              · simp [h2, h3] at hbc
              · have e1 : ¬ a.toNat < c.toNat := by omega
                have e2 : ¬ c.toNat < a.toNat := by omega
                simp [h2, h3] at hbc
                simp [e1, e2]
                exact ih bs cs hab hbc

theorem charsLe_antisymm : ∀ as bs : List Char,
    charsLe as bs = true → charsLe bs as = true → as = bs := by
  intro as
  induction as with
  | nil =>
    intro bs _ hba
    cases bs with
    | nil => rfl
    | cons b bs => simp [charsLe] at hba
  | cons a as ih =>
    intro bs hab hba
    cases bs with
    | nil => simp [charsLe] at hab
    | cons b bs =>
      simp only [charsLe] at hab hba
      by_cases h1 : a.toNat < b.toNat
      · have h2 : ¬ b.toNat < a.toNat := by omega
        simp [h1, h2] at hba
      · by_cases h2 : b.toNat < a.toNat
        · simp [h1, h2] at hab
        · have heq : a.toNat = b.toNat := by omega
          have hc : a = b := by
            apply Char.ext
            exact UInt32.toNat.inj heq
          simp [h1, h2] at hab hba
          rw [hc, ih bs hab hba]

theorem strLe_total (a b : String) : strLe a b = true ∨ strLe b a = true :=
  charsLe_total a.data b.data

theorem strLe_trans {a b c : String} (h1 : strLe a b = true) (h2 : strLe b c = true) :
    strLe a c = true :=
  charsLe_trans a.data b.data c.data h1 h2

theorem strLe_antisymm {a b : String} (h1 : strLe a b = true) (h2 : strLe b a = true) :
    a = b := by
  cases a with
  | mk as =>
    cases b with
    | mk bs =>
      have : as = bs := charsLe_antisymm as bs h1 h2
      rw [this]

theorem strLe_refl (a : String) : strLe a a = true := by
  rcases strLe_total a a with h | h <;> exact h

instance : IsTotal String (fun a b => strLe a b = true) := ⟨strLe_total⟩

instance : IsTrans String (fun a b => strLe a b = true) :=
  ⟨fun _ _ _ => strLe_trans⟩

instance : IsAntisymm String (fun a b => strLe a b = true) :=
  ⟨fun _ _ => strLe_antisymm⟩

/-- Shared shape of the two-key sorts `.sort(key1, key2)`. -/
theorem lexLe_total (k1 : α → String) (k2 : α → String) (le : α → α → Bool)
    (hle : ∀ a b, le a b = (if k1 a = k1 b then strLe (k2 a) (k2 b) else strLe (k1 a) (k1 b)))
    (a b : α) : le a b = true ∨ le b a = true := by
  rw [hle, hle]
  by_cases h : k1 a = k1 b
  · simp [h]
    exact strLe_total _ _
  · have h' : ¬ k1 b = k1 a := fun hh => h hh.symm
    simp [h, h']
    exact strLe_total _ _

theorem lexLe_trans (k1 : α → String) (k2 : α → String) (le : α → α → Bool)
    (hle : ∀ a b, le a b = (if k1 a = k1 b then strLe (k2 a) (k2 b) else strLe (k1 a) (k1 b)))
    (a b c : α) (hab : le a b = true) (hbc : le b c = true) : le a c = true := by
  rw [hle] at hab hbc
  rw [hle]
  by_cases h1 : k1 a = k1 b <;> by_cases h2 : k1 b = k1 c
  · rw [if_pos h1] at hab
    rw [if_pos h2] at hbc
    rw [if_pos (h1.trans h2)]
    exact strLe_trans hab hbc
  · rw [if_pos h1] at hab
    rw [if_neg h2] at hbc
    have h3 : ¬ k1 a = k1 c := fun hh => h2 (h1.symm.trans hh)
    rw [if_neg h3, h1]
    exact hbc
  · rw [if_neg h1] at hab
    rw [if_pos h2] at hbc
    have h3 : ¬ k1 a = k1 c := fun hh => h1 (hh.trans h2.symm)
    rw [if_neg h3, ← h2]
    exact hab
  · rw [if_neg h1] at hab
    rw [if_neg h2] at hbc
    by_cases h3 : k1 a = k1 c
    · exfalso
      apply h1
      have hba : strLe (k1 b) (k1 a) = true := by
        rw [h3]
        exact hbc
      exact strLe_antisymm hab hba
    · rw [if_neg h3]
      exact strLe_trans hab hbc

theorem freqLe_def (a b : FreqRow) :
    freqLe a b =
      (if a.sample = b.sample then strLe a.population b.population
       else strLe a.sample b.sample) := rfl

theorem respLe_def (a b : RespRow) :
    respLe a b =
      (if a.sample_id = b.sample_id then strLe a.population b.population
       else strLe a.sample_id b.sample_id) := rfl

instance : IsTotal FreqRow (fun a b => freqLe a b = true) :=
  ⟨lexLe_total FreqRow.sample FreqRow.population freqLe freqLe_def⟩

instance : IsTrans FreqRow (fun a b => freqLe a b = true) :=
  ⟨lexLe_trans FreqRow.sample FreqRow.population freqLe freqLe_def⟩

instance : IsTotal RespRow (fun a b => respLe a b = true) :=
  ⟨lexLe_total RespRow.sample_id RespRow.population respLe respLe_def⟩

instance : IsTrans RespRow (fun a b => respLe a b = true) :=
  ⟨lexLe_trans RespRow.sample_id RespRow.population respLe respLe_def⟩

/- ### Generic list lemmas -/

theorem flatMap_eq_map_of {f : α → List β} {g : α → β} :
    ∀ l : List α, (∀ a ∈ l, f a = [g a]) → l.flatMap f = l.map g := by
  intro l
  induction l with
  | nil => intro _; rfl
  | cons a t ih =>
    intro h
    rw [List.flatMap_cons, List.map_cons, h a (List.mem_cons_self a t),
      ih fun x hx => h x (List.mem_cons_of_mem a hx)]
    rfl

theorem filter_len_le_one {p : α → Bool} {key : α → String} {k : String} :
    ∀ l : List α, (l.map key).Nodup → (∀ x, p x = true → key x = k) →
      (l.filter p).length ≤ 1 := by
  intro l
  induction l with
  | nil => intro _ _; simp
  | cons x t ih =>
    intro hn hk
    rw [List.map_cons, List.nodup_cons] at hn
    by_cases hpx : p x = true
    · rw [List.filter_cons_of_pos hpx]
      have ht : t.filter p = [] := by
        rw [List.filter_eq_nil_iff]
        intro b hb hpb
        apply hn.1
        rw [hk x hpx, ← hk b hpb]
        exact List.mem_map_of_mem key hb
      rw [ht]
      exact Nat.le_refl 1
    · rw [List.filter_cons_of_neg hpx]
      exact ih hn.2 hk

theorem len_le_one_cases : ∀ l : List α, l.length ≤ 1 → l = [] ∨ ∃ a, l = [a] := by
  intro l h
  cases l with
  | nil => left; rfl
  | cons a t =>
    cases t with
    | nil => right; exact ⟨a, rfl⟩
    | cons b u => simp at h

theorem find?_eq_of_filter_singleton {p : α → Bool} {a : α} :
    ∀ l : List α, l.filter p = [a] → l.find? p = some a := by
  intro l
  induction l with
  | nil => intro h; simp at h
  | cons x t ih =>
    intro h
    by_cases hpx : p x = true
    · rw [List.filter_cons_of_pos hpx] at h
      have hx : x = a := (List.cons_eq_cons.mp h).1
      rw [List.find?_cons_of_pos t hpx, hx]
    · rw [List.filter_cons_of_neg hpx] at h
      rw [List.find?_cons_of_neg t hpx]
      exact ih h

/-- The filtered list is a singleton exactly when a match exists, under a
unique key. -/
theorem filter_eq_singleton_of_mem {p : α → Bool} {key : α → String} {k : String}
    {l : List α} {a : α} (hn : (l.map key).Nodup) (hk : ∀ x, p x = true → key x = k)
    (ha : a ∈ l) (hpa : p a = true) : l.filter p = [a] := by
  have hmem : a ∈ l.filter p := List.mem_filter.mpr ⟨ha, hpa⟩
  rcases len_le_one_cases (l.filter p) (filter_len_le_one l hn hk) with h0 | ⟨b, hb⟩
  · rw [h0] at hmem
    cases hmem
  · rw [hb] at hmem
    rw [hb, List.mem_singleton.mp hmem]

theorem dedup_map_inj [DecidableEq α] [DecidableEq β] {f : α → β} :
    ∀ l : List α, (∀ a ∈ l, ∀ b ∈ l, f a = f b → a = b) →
      l.dedup.map f = (l.map f).dedup := by
  intro l
  induction l with
  | nil => intro _; rfl
  | cons a t ih =>
    intro hinj
    have hrec := ih fun x hx y hy =>
      hinj x (List.mem_cons_of_mem a hx) y (List.mem_cons_of_mem a hy)
    by_cases ha : a ∈ t
    · rw [List.dedup_cons_of_mem ha, List.map_cons,
        List.dedup_cons_of_mem (List.mem_map_of_mem f ha), hrec]
    · have hfa : f a ∉ t.map f := by
        intro hmem
        rcases List.mem_map.mp hmem with ⟨b, hb, hfb⟩
        exact ha (hinj a (List.mem_cons_self a t) b (List.mem_cons_of_mem a hb) hfb.symm ▸ hb)
      rw [List.dedup_cons_of_not_mem ha, List.map_cons, List.map_cons,
        List.dedup_cons_of_not_mem hfa, hrec]

theorem sum_zero_of_nonneg : ∀ l : List ℤ, (∀ x ∈ l, 0 ≤ x) → l.sum = 0 →
    ∀ x ∈ l, x = 0 := by
  intro l
  induction l with
  | nil => intro _ _ x hx; cases hx
  | cons a t ih =>
    intro hpos hsum x hx
    rw [List.sum_cons] at hsum
    have ha : 0 ≤ a := hpos a (List.mem_cons_self a t)
    have ht : 0 ≤ t.sum := List.sum_nonneg fun y hy => hpos y (List.mem_cons_of_mem a hy)
    rcases List.mem_cons.mp hx with rfl | hx'
    · omega
    · exact ih (fun y hy => hpos y (List.mem_cons_of_mem a hy)) (by omega) x hx'

theorem insertAll_ok {key : α → String} :
    ∀ (batch table : List α), (batch.map key).Nodup →
      (∀ b ∈ batch, key b ∉ table.map key) →
      insertAll table key batch = .ok (table ++ batch) := by
  intro batch
  induction batch with
  | nil => intro table _ _; rw [List.append_nil]; rfl
  | cons a rest ih =>
    intro table hnd hdis
    rw [List.map_cons, List.nodup_cons] at hnd
    have hnotin : key a ∉ table.map key := hdis a (List.mem_cons_self a rest)
    have hc : (table.map key).contains (key a) = false := by
      rw [List.contains_eq_any_beq]
      rw [List.any_eq_false]
      intro x hx
      intro hbeq
      apply hnotin
      rw [eq_of_beq hbeq]
      exact hx
    rw [insertAll, hc]
    simp only [Bool.false_eq_true, if_false]
    rw [ih (table ++ [a]) hnd.2 ?_]
    · rw [List.append_assoc]
      rfl
    · intro b hb
      rw [List.map_append, List.mem_append]
      rintro (h1 | h2)
      · exact hdis b (List.mem_cons_of_mem a hb) h1
      · rcases List.mem_singleton.mp (by simpa using h2) with h3
        exact hnd.1 (h3 ▸ List.mem_map_of_mem key hb)

theorem insertAll_error_of_mem {key : α → String} (table : List α) (a : α)
    (rest : List α) (h : key a ∈ table.map key) :
    insertAll table key (a :: rest) = .error integrityMsg := by
  have hc : (table.map key).contains (key a) = true := by
    rw [List.contains_eq_any_beq, List.any_eq_true]
    exact ⟨key a, h, by simp⟩
  rw [insertAll, hc]
  simp only [if_true]

/- ### Facts about the significance loop -/

/-- The statistic pair used for a population. -/
def mwFor (mw : List PVal → List PVal → PVal × PVal) (rows : List RespRow)
    (pop : String) : PVal × PVal :=
  mw (grp rows pop "yes") (grp rows pop "no")

theorem sigLoop_ok_spec (mw : List PVal → List PVal → PVal × PVal)
    (rows : List RespRow) :
    ∀ ps out, sigLoop mw rows ps = .ok out →
      ∀ r ∈ out, ∃ pop ∈ ps,
        grp rows pop "yes" ≠ [] ∧ grp rows pop "no" ≠ [] ∧
        r = ⟨pop, (mwFor mw rows pop).1.roundP 2, (mwFor mw rows pop).2.roundP 4,
          PVal.lt (mwFor mw rows pop).2 (.num (1 / 20))⟩ := by
  intro ps
  induction ps with
  | nil =>
    intro out h r hr
    rw [sigLoop] at h
    injection h with h'
    rw [← h'] at hr
    cases hr
  | cons pop ps ih =>
    intro out h r hr
    rw [sigLoop, mannwhitneyuCall] at h
    by_cases hcond : grp rows pop "yes" = [] ∨ grp rows pop "no" = []
    · rw [if_pos hcond] at h
      cases h
    · rw [if_neg hcond] at h
      cases hrec : sigLoop mw rows ps with
      | error e => rw [hrec] at h; cases h
      | ok rs =>
        rw [hrec] at h
        injection h with h'
        rw [← h'] at hr
        rcases List.mem_cons.mp hr with rfl | hr'
        · refine ⟨pop, List.mem_cons_self pop ps, ?_, ?_, rfl⟩
          · intro he; exact hcond (Or.inl he)
          · intro he; exact hcond (Or.inr he)
        · rcases ih rs hrec r hr' with ⟨q, hq, h1, h2, h3⟩
          exact ⟨q, List.mem_cons_of_mem pop hq, h1, h2, h3⟩

theorem sigLoop_error_of_empty (mw : List PVal → List PVal → PVal × PVal)
    (rows : List RespRow) :
    ∀ ps, (∃ pop ∈ ps, grp rows pop "yes" = [] ∨ grp rows pop "no" = []) →
      sigLoop mw rows ps = .error scipyEmptyMsg := by
  intro ps
  induction ps with
  | nil =>
    rintro ⟨pop, hmem, _⟩
    cases hmem
  | cons q ps ih =>
    rintro ⟨pop, hmem, hemp⟩
    rw [sigLoop, mannwhitneyuCall]
    by_cases hcond : grp rows q "yes" = [] ∨ grp rows q "no" = []
    · rw [if_pos hcond]
    · rw [if_neg hcond]
      rcases List.mem_cons.mp hmem with rfl | hmem'
      · exact absurd hemp hcond
      · rw [ih ⟨pop, hmem', hemp⟩]

instance {ε α : Type} [DecidableEq ε] [DecidableEq α] : DecidableEq (Except ε α) := fun a b =>
  match a, b with
  | .error e, .error f =>
    if h : e = f then .isTrue (by rw [h]) else .isFalse (by intro hc; cases hc; exact h rfl)
  | .error _, .ok _ => .isFalse (by intro hc; cases hc)
  | .ok _, .error _ => .isFalse (by intro hc; cases hc)
  | .ok x, .ok y =>
    if h : x = y then .isTrue (by rw [h]) else .isFalse (by intro hc; cases hc; exact h rfl)

theorem grp_append_last (rows : List RespRow) (r : RespRow) (pop resp : String)
    (h : r.response ≠ some resp) : grp (rows ++ [r]) pop resp = grp rows pop resp := by
  rw [grp, grp, List.filter_append, List.map_append]
  have hnil : List.filter (fun x => decide (x.population = pop ∧ x.response = some resp))
      [r] = [] := by
    rw [List.filter_eq_nil_iff]
    intro b hb
    rw [List.mem_singleton.mp hb]
    simp only [decide_eq_true_eq, not_and]
    intro _ hresp
    exact h hresp
  rw [hnil, List.map_nil, List.append_nil]

theorem sortedPops_append_last (rows : List RespRow) (r : RespRow)
    (h3 : r.population ∈ rows.map (·.population)) :
    sortedPops (rows ++ [r]) = sortedPops rows := by
  rw [sortedPops, sortedPops]
  apply List.eq_of_perm_of_sorted ?_ (List.sorted_insertionSort _ _)
    (List.sorted_insertionSort _ _)
  refine ((List.perm_insertionSort _ _).trans ?_).trans
    (List.perm_insertionSort _ _).symm
  apply (List.perm_ext_iff_of_nodup (List.nodup_dedup _) (List.nodup_dedup _)).mpr
  intro a
  rw [List.mem_dedup, List.mem_dedup, List.map_append, List.mem_append]
  constructor
  · rintro (h | h)
    · exact h
    · have ha : a = r.population := by simpa using h
      rw [ha]
      exact h3
  · intro h
    exact Or.inl h

/-- C1 (amended): in every successful significance table, the
`significant` flag of each row equals the comparison `p < 0.05` applied to
the exact p-value returned by the test for that population, and the reported
`p_value` column is that p rounded to 4 decimals (so the flag follows the
unrounded p, not the reported value). -/
theorem significant_flag_matches_unrounded_p
    (mw : List PVal → List PVal → PVal × PVal) (rows : List RespRow)
    (out : List SigRow) (h : get_significance_tests mw rows = .ok out) :
    ∀ r ∈ out,
      r.significant = PVal.lt (mwFor mw rows r.population).2 (.num (1 / 20)) ∧
      r.p_value = (mwFor mw rows r.population).2.roundP 4 := by
  intro r hr
  rcases sigLoop_ok_spec mw rows (sortedPops rows) out h r hr with
    ⟨pop, _, _, _, hre⟩
  rw [hre]
  exact ⟨rfl, rfl⟩

def mwWitC1 : List PVal → List PVal → PVal × PVal := fun _ _ => (.num 3, .num (3 / 100))

def rowsWitC1 : List RespRow :=
  [⟨"s1", "p1", .num 60, some "yes"⟩, ⟨"s2", "p1", .num 40, some "no"⟩]

def rowWitC1 : SigRow := ⟨"p1", .num 3, .num (3 / 100), true⟩

theorem significant_flag_matches_unrounded_p_witness :
    get_significance_tests mwWitC1 rowsWitC1 = .ok [rowWitC1] ∧
    (rowWitC1.significant =
        PVal.lt (mwFor mwWitC1 rowsWitC1 rowWitC1.population).2 (.num (1 / 20)) ∧
      rowWitC1.p_value = (mwFor mwWitC1 rowsWitC1 rowWitC1.population).2.roundP 4) :=
  ⟨by decide,
    significant_flag_matches_unrounded_p mwWitC1 rowsWitC1 [rowWitC1] (by decide)
      rowWitC1 (List.mem_singleton.mpr rfl)⟩

/-- C1 (counterexample): with an exact p-value of 0.04999 the code sets
`significant = true`, yet the reported `p_value` (rounded to 4 decimals)
is exactly 0.05, and `0.05 < 0.05` is false — the flag does not equal the
comparison of the *reported* p-value against 0.05. -/
def mwCexC1 : List PVal → List PVal → PVal × PVal :=
  fun _ _ => (.num 1, .num (4999 / 100000))

def rowsCexC1 : List RespRow :=
  [⟨"s1", "p1", .num 60, some "yes"⟩, ⟨"s2", "p1", .num 40, some "no"⟩]

theorem significant_flag_counterexample :
    get_significance_tests mwCexC1 rowsCexC1 =
      .ok [⟨"p1", .num 1, .num (1 / 20), true⟩] ∧
    PVal.lt (.num (1 / 20)) (.num (1 / 20)) = false := by
  constructor
  · decide
  · decide

/-- C3 (amended): whenever some population of the input has an empty
responder group or an empty non-responder group, `get_significance_tests`
fails — scipy raises on the empty sample and the uncaught exception aborts
the whole computation, so no placeholder row is produced — but the error
is the fixed scipy message, which does not name the offending population. -/
theorem empty_group_errors (mw : List PVal → List PVal → PVal × PVal)
    (rows : List RespRow)
    (h : ∃ r ∈ rows, grp rows r.population "yes" = [] ∨
      grp rows r.population "no" = []) :
    get_significance_tests mw rows = .error scipyEmptyMsg := by
  rcases h with ⟨r, hr, hemp⟩
  apply sigLoop_error_of_empty
  refine ⟨r.population, ?_, hemp⟩
  exact (List.perm_insertionSort _ _).mem_iff.mpr
    (List.mem_dedup.mpr (List.mem_map_of_mem _ hr))

def mwAnyC3 : List PVal → List PVal → PVal × PVal := fun _ _ => (.num 0, .num 1)

def rowsC3bcell : List RespRow := [⟨"s1", "b_cell", .num 100, some "yes"⟩]

def rowsC3nkcell : List RespRow := [⟨"s1", "nk_cell", .num 100, some "yes"⟩]

theorem empty_group_errors_witness :
    (∃ r ∈ rowsC3bcell, grp rowsC3bcell r.population "yes" = [] ∨
      grp rowsC3bcell r.population "no" = []) ∧
    get_significance_tests mwAnyC3 rowsC3bcell = .error scipyEmptyMsg :=
  ⟨by decide, empty_group_errors mwAnyC3 rowsC3bcell (by decide)⟩

/-- C3 (counterexample): two inputs whose offending populations differ
("b_cell" here, "nk_cell" there) fail with the *same* error message, so
the reported error cannot be naming the offending population. -/
theorem empty_group_error_names_no_population :
    get_significance_tests mwAnyC3 rowsC3bcell = .error scipyEmptyMsg ∧
    get_significance_tests mwAnyC3 rowsC3nkcell = .error scipyEmptyMsg := by
  constructor
  · decide
  · decide

/-- C10: a row whose response is neither "yes" nor "no" (e.g. a NULL
response) is silently excluded from both comparison groups: appending such
a row for an already-present population leaves the entire significance
table (U statistics, p-values, flags, and row set) unchanged. -/
theorem excluded_response_rows_do_not_influence
    (mw : List PVal → List PVal → PVal × PVal) (rows : List RespRow)
    (r : RespRow) (h1 : r.response ≠ some "yes") (h2 : r.response ≠ some "no")
    (h3 : r.population ∈ rows.map (·.population)) :
    get_significance_tests mw (rows ++ [r]) = get_significance_tests mw rows := by
  have hcong : ∀ ps, sigLoop mw (rows ++ [r]) ps = sigLoop mw rows ps := by
    intro ps
    induction ps with
    | nil => rfl
    | cons pop ps ih =>
      rw [sigLoop, sigLoop, grp_append_last rows r pop "yes" h1,
        grp_append_last rows r pop "no" h2, ih]
  rw [get_significance_tests, get_significance_tests,
    sortedPops_append_last rows r h3, hcong]

def mwWitC10 : List PVal → List PVal → PVal × PVal := fun _ _ => (.num 2, .num (1 / 10))

def rowsWitC10 : List RespRow :=
  [⟨"s1", "p1", .num 60, some "yes"⟩, ⟨"s2", "p1", .num 40, some "no"⟩]

def rowWitC10 : RespRow := ⟨"s3", "p1", .num 5, none⟩

theorem excluded_response_rows_witness :
    rowWitC10.response ≠ some "yes" ∧ rowWitC10.response ≠ some "no" ∧
    rowWitC10.population ∈ rowsWitC10.map (·.population) ∧
    get_significance_tests mwWitC10 (rowsWitC10 ++ [rowWitC10]) =
      get_significance_tests mwWitC10 rowsWitC10 :=
  ⟨by decide, by decide, by decide,
    excluded_response_rows_do_not_influence mwWitC10 rowsWitC10 rowWitC10
      (by decide) (by decide) (by decide)⟩

/- ### C4: samples with zero total count -/

/-- The sum of the raw counts of one sample, straight off the cell_counts table. -/
def sampleTotal (db : DB) (sid : String) : ℤ :=
  ((db.cell_counts.filter fun c => decide (c.sample_id = sid)).map (·.count)).sum

theorem jrow_source (db : DB) : ∀ x ∈ joinedRows db, ∃ cc ∈ db.cell_counts,
    x.sample_id = cc.sample_id ∧ x.count = cc.count := by
  intro x hx
  rw [joinedRows] at hx
  rcases List.mem_flatMap.mp hx with ⟨cc, hcc, hx2⟩
  rcases List.mem_flatMap.mp hx2 with ⟨s, hs, hx3⟩
  rcases List.mem_map.mp hx3 with ⟨sub, hsub, hx4⟩
  exact ⟨cc, hcc, by rw [← hx4], by rw [← hx4]⟩

theorem rjrow_source (db : DB) : ∀ x ∈ respJoined db, ∃ cc ∈ db.cell_counts,
    x.sample_id = cc.sample_id ∧ x.count = cc.count := by
  intro x hx
  rw [respJoined] at hx
  rcases List.mem_flatMap.mp hx with ⟨cc, hcc, hx2⟩
  rcases List.mem_flatMap.mp hx2 with ⟨s, hs, hx3⟩
  rcases List.mem_map.mp hx3 with ⟨sub, hsub, hx4⟩
  exact ⟨cc, hcc, by rw [← hx4], by rw [← hx4]⟩

theorem counts_zero_of_total_zero (db : DB)
    (hpos : ∀ cc ∈ db.cell_counts, 0 ≤ cc.count) (sid : String)
    (h0 : sampleTotal db sid = 0) :
    ∀ cc ∈ db.cell_counts, cc.sample_id = sid → cc.count = 0 := by
  intro cc hcc hsid
  have hmem : cc.count ∈
      (db.cell_counts.filter fun c => decide (c.sample_id = sid)).map (·.count) :=
    List.mem_map_of_mem _ (List.mem_filter.mpr ⟨hcc, by simp [hsid]⟩)
  apply sum_zero_of_nonneg _ ?_ h0 _ hmem
  intro y hy
  rcases List.mem_map.mp hy with ⟨c, hc, hyc⟩
  rw [← hyc]
  exact hpos c (List.mem_filter.mp hc).1

theorem totalFor_zero (db : DB) (hpos : ∀ cc ∈ db.cell_counts, 0 ≤ cc.count)
    (sid : String) (h0 : sampleTotal db sid = 0) :
    totalFor (joinedRows db) sid = 0 := by
  rw [totalFor]
  apply List.sum_eq_zero
  intro y hy
  rcases List.mem_map.mp hy with ⟨x, hx, hxy⟩
  have hxj : x ∈ joinedRows db := (List.mem_filter.mp hx).1
  have hsid : x.sample_id = sid := by
    have := (List.mem_filter.mp hx).2
    simpa using this
  rcases jrow_source db x hxj with ⟨cc, hcc, he1, he2⟩
  rw [← hxy, he2]
  exact counts_zero_of_total_zero db hpos sid h0 cc hcc (he1.symm.trans hsid)

theorem rtotalFor_zero (db : DB) (hpos : ∀ cc ∈ db.cell_counts, 0 ≤ cc.count)
    (sid : String) (h0 : sampleTotal db sid = 0) :
    rtotalFor (respJoined db) sid = 0 := by
  rw [rtotalFor]
  apply List.sum_eq_zero
  intro y hy
  rcases List.mem_map.mp hy with ⟨x, hx, hxy⟩
  have hxj : x ∈ respJoined db := (List.mem_filter.mp hx).1
  have hsid : x.sample_id = sid := by
    have := (List.mem_filter.mp hx).2
    simpa using this
  rcases rjrow_source db x hxj with ⟨cc, hcc, he1, he2⟩
  rw [← hxy, he2]
  exact counts_zero_of_total_zero db hpos sid h0 cc hcc (he1.symm.trans hsid)

/-- C4 (amended): a sample whose raw counts sum to zero makes neither the
frequency table nor the responder table raise — since counts are
non-negative, all percentages of that sample are the float NaN (never a
silently coerced 0) — but such rows are NOT excluded before statistical
testing: every "yes"/"no" row, NaN percentage included, lands in the
group list handed to the test. -/
theorem zero_total_sample_gives_nan_and_reaches_test (db : DB)
    (hpos : ∀ cc ∈ db.cell_counts, 0 ≤ cc.count) (sid : String)
    (h0 : sampleTotal db sid = 0) :
    (∀ r ∈ get_frequency_table db, r.sample = sid → r.percentage = .nan) ∧
    (∀ r ∈ get_responder_frequencies db, r.sample_id = sid → r.percentage = .nan) ∧
    (∀ rows : List RespRow, ∀ r ∈ rows, ∀ pop : String,
      r.population = pop → r.response = some "yes" →
        r.percentage ∈ grp rows pop "yes") := by
  refine ⟨?_, ?_, ?_⟩
  · intro r hr hsample
    have hr' : r ∈ (joinedRows db).map (freqRowOf (joinedRows db)) :=
      (List.perm_insertionSort _ _).mem_iff.mp hr
    rcases List.mem_map.mp hr' with ⟨x, hx, hxr⟩
    have hsid : x.sample_id = sid := by
      rw [← hxr] at hsample
      exact hsample
    rcases jrow_source db x hx with ⟨cc, hcc, he1, he2⟩
    have hcnt : x.count = 0 := by
      rw [he2]
      exact counts_zero_of_total_zero db hpos sid h0 cc hcc (he1.symm.trans hsid)
    rw [← hxr]
    show pct x.count (totalFor (joinedRows db) x.sample_id) = .nan
    rw [hsid, totalFor_zero db hpos sid h0, hcnt]
    rfl
  · intro r hr hsample
    have hr' : r ∈ (respJoined db).map fun x =>
        (⟨x.sample_id, x.population,
          pct x.count (rtotalFor (respJoined db) x.sample_id), x.response⟩ : RespRow) :=
      (List.perm_insertionSort _ _).mem_iff.mp hr
    rcases List.mem_map.mp hr' with ⟨x, hx, hxr⟩
    have hsid : x.sample_id = sid := by
      rw [← hxr] at hsample
      exact hsample
    rcases rjrow_source db x hx with ⟨cc, hcc, he1, he2⟩
    have hcnt : x.count = 0 := by
      rw [he2]
      exact counts_zero_of_total_zero db hpos sid h0 cc hcc (he1.symm.trans hsid)
    rw [← hxr]
    show pct x.count (rtotalFor (respJoined db) x.sample_id) = .nan
    rw [hsid, rtotalFor_zero db hpos sid h0, hcnt]
    rfl
  · intro rows r hr pop hpop hresp
    apply List.mem_map_of_mem
    apply List.mem_filter.mpr
    refine ⟨hr, ?_⟩
    simp [hpop, hresp]

/-- The C4 store: one melanoma/PBMC/miraclib responder whose only sample
has every population count equal to zero. -/
def dbC4 : DB :=
  ⟨["P1"],
   [⟨"sub1", "P1", "melanoma", 40, "F", some "miraclib", some "yes"⟩],
   [⟨"s1", "sub1", "PBMC", 0⟩],
   [⟨"s1", "b_cell", 0⟩, ⟨"s1", "nk_cell", 0⟩]⟩

theorem zero_total_sample_witness :
    (∀ cc ∈ dbC4.cell_counts, 0 ≤ cc.count) ∧ sampleTotal dbC4 "s1" = 0 ∧
    ((∀ r ∈ get_frequency_table dbC4, r.sample = "s1" → r.percentage = .nan) ∧
     (∀ r ∈ get_responder_frequencies dbC4, r.sample_id = "s1" → r.percentage = .nan) ∧
     (∀ rows : List RespRow, ∀ r ∈ rows, ∀ pop : String,
       r.population = pop → r.response = some "yes" →
         r.percentage ∈ grp rows pop "yes")) :=
  ⟨by decide, by decide,
    zero_total_sample_gives_nan_and_reaches_test dbC4 (by decide) "s1" (by decide)⟩

/-- C4 (counterexample to the exclusion part): in the real pipeline the
responder table of `dbC4` carries NaN percentages with response "yes", and
the responder group list that `get_significance_tests` builds for
"b_cell" from that table is exactly `[NaN]` — the zero-total rows are not
excluded before statistical testing. -/
theorem zero_total_rows_reach_the_test :
    get_responder_frequencies dbC4 =
      [⟨"s1", "b_cell", .nan, some "yes"⟩, ⟨"s1", "nk_cell", .nan, some "yes"⟩] ∧
    grp (get_responder_frequencies dbC4) "b_cell" "yes" = [.nan] := by
  constructor
  · decide
  · decide

/- ### C5, C6, C7: the loading claims -/

theorem map_fun_id (l : List String) : l.map (fun p => p) = l := by
  induction l with
  | nil => rfl
  | cons a t ih => rw [List.map_cons, ih]

theorem insertAll_into_empty {key : α → String} (batch : List α)
    (hnd : (batch.map key).Nodup) :
    insertAll ([] : List α) key batch = .ok batch := by
  have h := insertAll_ok batch [] hnd (fun b _ hmem => by cases hmem)
  rwa [List.nil_append] at h

theorem load_csv_ok_parts (df : List CsvRow) (st : DB)
    (h : load_csv emptyDB df = .ok st) :
    st.cell_counts = ccBatch df ∧
    (insertAll ([] : List String) (fun p => p) ((df.map (·.project)).dedup) =
        .ok st.projects) ∧
    (insertAll ([] : List Subject) Subject.id ((df.map subjOfRow).dedup) =
        .ok st.subjects) := by
  rw [load_csv] at h
  cases h1 : insertAll emptyDB.projects (fun p => p) ((df.map (·.project)).dedup) with
  | error e => rw [h1] at h; cases h
  | ok pb =>
    rw [h1] at h
    cases h2 : insertAll emptyDB.subjects Subject.id ((df.map subjOfRow).dedup) with
    | error e => rw [h2] at h; cases h
    | ok sb =>
      rw [h2] at h
      cases h3 : insertAll emptyDB.samples Sample.id ((df.map sampOfRow).dedup) with
      | error e => rw [h3] at h; cases h
      | ok sa =>
        rw [h3] at h
        injection h with h'
        rw [← h']
        exact ⟨List.nil_append _, h1, h2⟩

/-- C5 (amended): `load_csv` performs no explicit duplicate-store check,
but re-loading the *same* file into the store it populated is rejected:
the first re-inserted project id violates its primary key, the transaction
aborts with the integrity error, and (the result being an error) the
store of the caller — hence the row count of every table — is unchanged. -/
theorem reload_same_file_fails (df : List CsvRow) (st : DB) (hne : df ≠ [])
    (h : load_csv emptyDB df = .ok st) :
    load_csv st df = .error integrityMsg := by
  have hpb : insertAll ([] : List String) (fun p => p) ((df.map (·.project)).dedup) =
      .ok ((df.map (·.project)).dedup) := by
    apply insertAll_into_empty
    rw [map_fun_id]
    exact List.nodup_dedup _
  have hproj : st.projects = (df.map (·.project)).dedup := by
    have hp := (load_csv_ok_parts df st h).2.1
    rw [hpb] at hp
    injection hp with hp'
    rw [hp']
  cases hpbnil : (df.map (·.project)).dedup with
  | nil =>
    exfalso
    exact hne (List.map_eq_nil_iff.mp ((List.dedup_eq_nil _).mp hpbnil))
  | cons a rest =>
    rw [load_csv]
    have herr : insertAll st.projects (fun p => p) ((df.map (·.project)).dedup) =
        .error integrityMsg := by
      rw [hpbnil]
      apply insertAll_error_of_mem
      rw [hproj, hpbnil, map_fun_id]
      exact List.mem_cons_self a rest
    rw [herr]

def rowC5 : CsvRow :=
  ⟨"P1", "sub1", "melanoma", 40, "M", some "miraclib", some "yes",
    "s1", "PBMC", 0, 30, 10, 20, 5, 35⟩

def dfC5 : List CsvRow := [rowC5]

def stC5 : DB :=
  ⟨["P1"],
   [⟨"sub1", "P1", "melanoma", 40, "M", some "miraclib", some "yes"⟩],
   [⟨"s1", "sub1", "PBMC", 0⟩],
   [⟨"s1", "b_cell", 30⟩, ⟨"s1", "cd8_t_cell", 10⟩, ⟨"s1", "cd4_t_cell", 20⟩,
    ⟨"s1", "nk_cell", 5⟩, ⟨"s1", "monocyte", 35⟩]⟩

theorem reload_same_file_fails_witness :
    dfC5 ≠ [] ∧ load_csv emptyDB dfC5 = .ok stC5 ∧
    load_csv stC5 dfC5 = .error integrityMsg :=
  ⟨by decide, by decide, reload_same_file_fails dfC5 stC5 (by decide) (by decide)⟩

/-- C5 (counterexample): a store that already holds data accepts a second
load whose ids are fresh — the load is not rejected and the project table
grows from 1 to 2 rows, against the at-most-once ingestion policy. -/
def dfC5fresh : List CsvRow :=
  [⟨"P2", "sub2", "lung", 55, "F", none, none, "s2", "tumor", 7, 1, 2, 3, 4, 5⟩]

theorem second_load_not_rejected :
    stC5.projects ≠ [] ∧
    (load_csv stC5 dfC5fresh).map (fun st => st.projects.length) = .ok 2 := by
  constructor
  · decide
  · decide

/-- C6 (amended): `load_csv` deduplicates each entity by the *entire
selected row*, not by its id: when equal ids always carry equal attribute
rows, every distinct Project, Subject and Sample id is inserted exactly
once (the ids of the table are exactly the distinct input ids, without
repetition); rows that repeat an id with different attributes instead
produce two inserts of one primary key and abort the load. -/
theorem load_dedups_by_full_row (df : List CsvRow)
    (hsub : ∀ r ∈ df, ∀ q ∈ df, r.subject = q.subject → subjOfRow r = subjOfRow q)
    (hsamp : ∀ r ∈ df, ∀ q ∈ df, r.sample = q.sample → sampOfRow r = sampOfRow q) :
    load_csv emptyDB df =
      .ok ⟨(df.map (·.project)).dedup, (df.map subjOfRow).dedup,
        (df.map sampOfRow).dedup, ccBatch df⟩ ∧
    (df.map (·.project)).dedup.Nodup ∧
    ((df.map subjOfRow).dedup.map Subject.id).Nodup ∧
    (df.map subjOfRow).dedup.map Subject.id = (df.map (·.subject)).dedup ∧
    ((df.map sampOfRow).dedup.map Sample.id).Nodup ∧
    (df.map sampOfRow).dedup.map Sample.id = (df.map (·.sample)).dedup := by
  have hsubinj : ∀ a ∈ df.map subjOfRow, ∀ b ∈ df.map subjOfRow,
      Subject.id a = Subject.id b → a = b := by
    intro a ha b hb hid
    rcases List.mem_map.mp ha with ⟨r, hr, hra⟩
    rcases List.mem_map.mp hb with ⟨q, hq, hqb⟩
    rw [← hra, ← hqb]
    apply hsub r hr q hq
    rw [← hra, ← hqb] at hid
    exact hid
  have hsampinj : ∀ a ∈ df.map sampOfRow, ∀ b ∈ df.map sampOfRow,
      Sample.id a = Sample.id b → a = b := by
    intro a ha b hb hid
    rcases List.mem_map.mp ha with ⟨r, hr, hra⟩
    rcases List.mem_map.mp hb with ⟨q, hq, hqb⟩
    rw [← hra, ← hqb]
    apply hsamp r hr q hq
    rw [← hra, ← hqb] at hid
    exact hid
  have hsubid : (df.map subjOfRow).dedup.map Subject.id = (df.map (·.subject)).dedup := by
    rw [dedup_map_inj (df.map subjOfRow) hsubinj, List.map_map]
    rfl
  have hsampid : (df.map sampOfRow).dedup.map Sample.id = (df.map (·.sample)).dedup := by
    rw [dedup_map_inj (df.map sampOfRow) hsampinj, List.map_map]
    rfl
  have hsubnd : ((df.map subjOfRow).dedup.map Subject.id).Nodup := by
    rw [hsubid]
    exact List.nodup_dedup _
  have hsampnd : ((df.map sampOfRow).dedup.map Sample.id).Nodup := by
    rw [hsampid]
    exact List.nodup_dedup _
  refine ⟨?_, List.nodup_dedup _, hsubnd, hsubid, hsampnd, hsampid⟩
  rw [load_csv]
  have h1 : insertAll emptyDB.projects (fun p => p) ((df.map (·.project)).dedup) =
      .ok ((df.map (·.project)).dedup) := by
    apply insertAll_into_empty
    rw [map_fun_id]
    exact List.nodup_dedup _
  have h2 : insertAll emptyDB.subjects Subject.id ((df.map subjOfRow).dedup) =
      .ok ((df.map subjOfRow).dedup) :=
    insertAll_into_empty _ hsubnd
  have h3 : insertAll emptyDB.samples Sample.id ((df.map sampOfRow).dedup) =
      .ok ((df.map sampOfRow).dedup) :=
    insertAll_into_empty _ hsampnd
  rw [h1, h2, h3]
  rfl

def rowC6a : CsvRow :=
  ⟨"P1", "sub1", "melanoma", 30, "M", some "miraclib", some "yes",
    "sA", "PBMC", 0, 1, 2, 3, 4, 5⟩

def rowC6b : CsvRow :=
  ⟨"P1", "sub1", "melanoma", 40, "M", some "miraclib", some "yes",
    "sB", "PBMC", 7, 1, 2, 3, 4, 5⟩

def dfC6 : List CsvRow := [rowC6a, rowC6b]

/-- C6 (counterexample): the same subject id appearing in two rows with
different ages is *not* inserted exactly once — the whole load aborts
with an integrity error and inserts nothing. -/
theorem duplicate_subject_id_aborts_load :
    dfC6.map (·.subject) = ["sub1", "sub1"] ∧
    load_csv emptyDB dfC6 = .error integrityMsg := by
  constructor
  · decide
  · decide

def rowC6c : CsvRow :=
  ⟨"P2", "sub2", "carcinoma", 61, "F", none, none,
    "sC", "tumor", 14, 6, 7, 8, 9, 10⟩

def dfC6w : List CsvRow := [rowC6a, rowC6a, rowC6c]

theorem load_dedups_by_full_row_witness :
    (∀ r ∈ dfC6w, ∀ q ∈ dfC6w, r.subject = q.subject → subjOfRow r = subjOfRow q) ∧
    (∀ r ∈ dfC6w, ∀ q ∈ dfC6w, r.sample = q.sample → sampOfRow r = sampOfRow q) ∧
    (load_csv emptyDB dfC6w =
        .ok ⟨(dfC6w.map (·.project)).dedup, (dfC6w.map subjOfRow).dedup,
          (dfC6w.map sampOfRow).dedup, ccBatch dfC6w⟩ ∧
      (dfC6w.map (·.project)).dedup.Nodup ∧
      ((dfC6w.map subjOfRow).dedup.map Subject.id).Nodup ∧
      (dfC6w.map subjOfRow).dedup.map Subject.id = (dfC6w.map (·.subject)).dedup ∧
      ((dfC6w.map sampOfRow).dedup.map Sample.id).Nodup ∧
      (dfC6w.map sampOfRow).dedup.map Sample.id = (dfC6w.map (·.sample)).dedup) :=
  ⟨by decide, by decide, load_dedups_by_full_row dfC6w (by decide) (by decide)⟩

/- C7 lemmas -/

theorem ccBlocks_filter_nil (df : List CsvRow) (sid p : String) :
    ∀ pops : List String, p ∉ pops →
      ((pops.flatMap fun q => df.map fun r => (⟨r.sample, q, popCount q r⟩ : CellCount)).filter
        fun c => decide (c.sample_id = sid ∧ c.population = p)) = [] := by
  intro pops
  induction pops with
  | nil => intro _; rfl
  | cons q rest ih =>
    intro hnp
    rw [List.flatMap_cons, List.filter_append,
      ih fun hmem => hnp (List.mem_cons_of_mem q hmem), List.append_nil]
    rw [List.filter_eq_nil_iff]
    intro c hc
    rcases List.mem_map.mp hc with ⟨r, _, hrc⟩
    rw [← hrc]
    simp only [decide_eq_true_eq, not_and]
    intro _ hqp
    exact hnp (hqp ▸ List.mem_cons_self q rest)

theorem ccBlock_filter_le_one (df : List CsvRow)
    (hnd : (df.map (·.sample)).Nodup) (sid q p : String) :
    ((df.map fun r => (⟨r.sample, q, popCount q r⟩ : CellCount)).filter
      fun c => decide (c.sample_id = sid ∧ c.population = p)).length ≤ 1 := by
  rw [List.filter_map]
  rw [List.length_map]
  apply filter_len_le_one df hnd
  intro x hx
  have := of_decide_eq_true hx
  exact this.1

theorem ccBlocks_filter_le_one (df : List CsvRow)
    (hnd : (df.map (·.sample)).Nodup) (sid p : String) :
    ∀ pops : List String, pops.Nodup →
      ((pops.flatMap fun q => df.map fun r => (⟨r.sample, q, popCount q r⟩ : CellCount)).filter
        fun c => decide (c.sample_id = sid ∧ c.population = p)).length ≤ 1 := by
  intro pops
  induction pops with
  | nil => intro _; simp
  | cons q rest ih =>
    intro hpnd
    rw [List.nodup_cons] at hpnd
    rw [List.flatMap_cons, List.filter_append, List.length_append]
    by_cases hq : q = p
    · have hrest : ((rest.flatMap fun q => df.map fun r =>
          (⟨r.sample, q, popCount q r⟩ : CellCount)).filter
            fun c => decide (c.sample_id = sid ∧ c.population = p)).length = 0 := by
        rw [ccBlocks_filter_nil df sid p rest (hq ▸ hpnd.1)]
        rfl
      rw [hrest]
      have := ccBlock_filter_le_one df hnd sid q p
      omega
    · have hblock : ((df.map fun r => (⟨r.sample, q, popCount q r⟩ : CellCount)).filter
          fun c => decide (c.sample_id = sid ∧ c.population = p)) = [] := by
        rw [List.filter_eq_nil_iff]
        intro c hc
        rcases List.mem_map.mp hc with ⟨r, _, hrc⟩
        rw [← hrc]
        simp only [decide_eq_true_eq, not_and]
        intro _ hqp
        exact hq hqp
      rw [hblock]
      simpa using ih hpnd.2

/-- C7 (amended): after a successful load of a table whose rows carry
pairwise distinct sample ids, the store holds at most one CellCount row
per (sample, population) pair; the load itself never deduplicates
CellCount rows, so the invariant rests entirely on the input having one
row per sample. -/
theorem cellcount_unique_of_unique_samples (df : List CsvRow) (st : DB)
    (hnd : (df.map (·.sample)).Nodup) (h : load_csv emptyDB df = .ok st) :
    ∀ sid p : String, (st.cell_counts.filter fun c =>
      decide (c.sample_id = sid ∧ c.population = p)).length ≤ 1 := by
  intro sid p
  rw [(load_csv_ok_parts df st h).1, ccBatch]
  exact ccBlocks_filter_le_one df hnd sid p CELL_POPULATIONS (by decide)

def dfC7 : List CsvRow := [rowC5, rowC5]

/-- C7 (counterexample): a table repeating one (fully identical) sample
row loads *successfully* — projects, subjects and samples are deduplicated
— yet the un-deduplicated unpivot inserts the (sample, population) pair
("s1", "b_cell") twice, violating the uniqueness invariant after a
completed load. -/
theorem duplicate_sample_rows_break_uniqueness :
    ((load_csv emptyDB dfC7).map fun st =>
      (st.cell_counts.filter fun c =>
        decide (c.sample_id = "s1" ∧ c.population = "b_cell")).length) = .ok 2 := by
  decide

def dfC7w : List CsvRow := [rowC6a, rowC6c]

def stC7w : DB :=
  ⟨["P1", "P2"],
   [⟨"sub1", "P1", "melanoma", 30, "M", some "miraclib", some "yes"⟩,
    ⟨"sub2", "P2", "carcinoma", 61, "F", none, none⟩],
   [⟨"sA", "sub1", "PBMC", 0⟩, ⟨"sC", "sub2", "tumor", 14⟩],
   [⟨"sA", "b_cell", 1⟩, ⟨"sC", "b_cell", 6⟩,
    ⟨"sA", "cd8_t_cell", 2⟩, ⟨"sC", "cd8_t_cell", 7⟩,
    ⟨"sA", "cd4_t_cell", 3⟩, ⟨"sC", "cd4_t_cell", 8⟩,
    ⟨"sA", "nk_cell", 4⟩, ⟨"sC", "nk_cell", 9⟩,
    ⟨"sA", "monocyte", 5⟩, ⟨"sC", "monocyte", 10⟩]⟩

theorem cellcount_unique_witness :
    (dfC7w.map (·.sample)).Nodup ∧ load_csv emptyDB dfC7w = .ok stC7w ∧
    (∀ sid p : String, (stC7w.cell_counts.filter fun c =>
      decide (c.sample_id = sid ∧ c.population = p)).length ≤ 1) :=
  ⟨by decide, by decide,
    cellcount_unique_of_unique_samples dfC7w stC7w (by decide) (by decide)⟩

/- ### C8: subject counts on the baseline cohort -/

theorem groupCount_sum {α : Type} [DecidableEq α] (l : List α) :
    ((groupCount l).map (·.2)).sum = l.length := by
  rw [groupCount, List.map_map]
  exact List.sum_map_count_dedup_eq_length l

theorem baseline_source (db : DB) : ∀ x ∈ get_baseline_samples db,
    ∃ sub ∈ db.subjects, sub.id = x.subject_id ∧ x.response = sub.response ∧
      x.sex = sub.sex := by
  intro x hx
  rw [get_baseline_samples] at hx
  rcases List.mem_flatMap.mp hx with ⟨s, hs, hx2⟩
  by_cases hc : s.sample_type = "PBMC" ∧ s.time_from_treatment_start = 0
  · rw [if_pos hc] at hx2
    rcases List.mem_map.mp hx2 with ⟨sub, hsub, hx3⟩
    have hsubs := (List.mem_filter.mp hsub).1
    exact ⟨sub, hsubs, by rw [← hx3], by rw [← hx3], by rw [← hx3]⟩
  · rw [if_neg hc] at hx2
    cases hx2

/-- C8: both subject-count widgets deduplicate to distinct subjects
before counting — the deduplicated subject list has exactly one entry per
distinct subject id of the baseline cohort, however many samples a
subject contributes — and the response group sizes (as well as the sex
group sizes) sum to that distinct-subject count. -/
theorem subject_counts_dedup (db : DB)
    (hb : (db.subjects.map Subject.id).Nodup) :
    ((response_counts db).map (·.2)).sum =
      (((get_baseline_samples db).map (·.subject_id)).dedup).length ∧
    ((sex_counts db).map (·.2)).sum =
      (((get_baseline_samples db).map (·.subject_id)).dedup).length ∧
    (tab3Subjects db).length =
      (((get_baseline_samples db).map (·.subject_id)).dedup).length := by
  have hinj : ∀ a ∈ (get_baseline_samples db).map
        (fun r => (r.subject_id, r.response, r.sex)),
      ∀ b ∈ (get_baseline_samples db).map (fun r => (r.subject_id, r.response, r.sex)),
        a.1 = b.1 → a = b := by
    intro a ha b hbm h1
    rcases List.mem_map.mp ha with ⟨x, hx, hxa⟩
    rcases List.mem_map.mp hbm with ⟨y, hy, hyb⟩
    rcases baseline_source db x hx with ⟨sx, hsx, hex, hrx, hgx⟩
    rcases baseline_source db y hy with ⟨sy, hsy, hey, hry, hgy⟩
    have hid : x.subject_id = y.subject_id := by
      rw [← hxa, ← hyb] at h1
      exact h1
    have hsxy : sx = sy :=
      List.inj_on_of_nodup_map hb hsx hsy (by rw [hex, hey, hid])
    rw [← hxa, ← hyb]
    rw [hid, hrx, hgx, hry, hgy, hsxy]
  have hlen : (tab3Subjects db).length =
      (((get_baseline_samples db).map (·.subject_id)).dedup).length := by
    have hd := dedup_map_inj (f := Prod.fst)
      ((get_baseline_samples db).map (fun r => (r.subject_id, r.response, r.sex))) hinj
    rw [List.map_map] at hd
    have hcomp : (((get_baseline_samples db).map
        (fun r => (r.subject_id, r.response, r.sex))).dedup.map Prod.fst).length =
        (((get_baseline_samples db).map (·.subject_id)).dedup).length := by
      rw [hd]
      rfl
    rw [tab3Subjects, ← hcomp, List.length_map]
  refine ⟨?_, ?_, hlen⟩
  · rw [response_counts, groupCount_sum, List.length_map, hlen]
  · rw [sex_counts, groupCount_sum, List.length_map, hlen]

/-- A baseline cohort in which subject "sub1" contributes two qualifying
samples. -/
def dbC8 : DB :=
  ⟨["P1"],
   [⟨"sub1", "P1", "melanoma", 40, "M", some "miraclib", some "yes"⟩,
    ⟨"sub2", "P1", "melanoma", 50, "F", some "miraclib", some "no"⟩],
   [⟨"s1", "sub1", "PBMC", 0⟩, ⟨"s2", "sub1", "PBMC", 0⟩, ⟨"s3", "sub2", "PBMC", 0⟩],
   []⟩

theorem subject_counts_dedup_witness :
    (dbC8.subjects.map Subject.id).Nodup ∧
    (((response_counts dbC8).map (·.2)).sum =
        (((get_baseline_samples dbC8).map (·.subject_id)).dedup).length ∧
      ((sex_counts dbC8).map (·.2)).sum =
        (((get_baseline_samples dbC8).map (·.subject_id)).dedup).length ∧
      (tab3Subjects dbC8).length =
        (((get_baseline_samples dbC8).map (·.subject_id)).dedup).length) :=
  ⟨by decide, subject_counts_dedup dbC8 (by decide)⟩

/- ### C9: the filtered mean -/

/-- Whether a CellCount row satisfies the WHERE clause of
`get_avg_bcell_male_responders`, phrased as a direct predicate on the
store: population "b_cell", joined to a baseline (time 0) sample of a
melanoma male responder. -/
def ccMatches (db : DB) (cc : CellCount) : Bool :=
  decide (cc.population = "b_cell") &&
    db.samples.any fun s =>
      decide (s.id = cc.sample_id ∧ s.time_from_treatment_start = 0) &&
        db.subjects.any fun sub =>
          decide (sub.id = s.subject_id ∧ sub.condition = "melanoma" ∧
            sub.sex = "M" ∧ sub.response = some "yes")

/-- The counts of the matching rows, in table order. -/
def matchingBcell (db : DB) : List ℤ :=
  (db.cell_counts.filter (ccMatches db)).map (·.count)

theorem flatMap_if_eq_filter_map {f : α → List β} {p : α → Bool} {g : α → β} :
    ∀ l : List α, (∀ a ∈ l, f a = if p a then [g a] else []) →
      l.flatMap f = (l.filter p).map g := by
  intro l
  induction l with
  | nil => intro _; rfl
  | cons a t ih =>
    intro h
    rw [List.flatMap_cons, h a (List.mem_cons_self a t),
      ih fun x hx => h x (List.mem_cons_of_mem a hx)]
    by_cases hp : p a = true
    · rw [if_pos hp, List.filter_cons_of_pos hp, List.map_cons]
      rfl
    · rw [if_neg hp, List.filter_cons_of_neg hp, List.nil_append]

theorem bcell_inner (db : DB) (hs : (db.samples.map Sample.id).Nodup)
    (hb : (db.subjects.map Subject.id).Nodup) (cc : CellCount) :
    (if cc.population = "b_cell" then
      (db.samples.filter fun s =>
          decide (s.id = cc.sample_id ∧ s.time_from_treatment_start = 0)).flatMap fun s =>
        (db.subjects.filter fun sub =>
            decide (sub.id = s.subject_id ∧ sub.condition = "melanoma" ∧
              sub.sex = "M" ∧ sub.response = some "yes")).map fun _ => cc.count
     else []) = if ccMatches db cc then [cc.count] else [] := by
  by_cases hpop : cc.population = "b_cell"
  · rw [if_pos hpop]
    have hccm : ccMatches db cc =
        db.samples.any fun s =>
          decide (s.id = cc.sample_id ∧ s.time_from_treatment_start = 0) &&
            db.subjects.any fun sub =>
              decide (sub.id = s.subject_id ∧ sub.condition = "melanoma" ∧
                sub.sex = "M" ∧ sub.response = some "yes") := by
      rw [ccMatches, decide_eq_true hpop, Bool.true_and]
    have hFle : ((db.samples.filter fun s =>
        decide (s.id = cc.sample_id ∧ s.time_from_treatment_start = 0)).length ≤ 1) := by
      apply filter_len_le_one db.samples hs
      intro x hx
      exact (of_decide_eq_true hx).1
    rcases len_le_one_cases _ hFle with hF | ⟨s0, hF⟩
    · rw [hF]
      have hany : (db.samples.any fun s =>
          decide (s.id = cc.sample_id ∧ s.time_from_treatment_start = 0) &&
            db.subjects.any fun sub =>
              decide (sub.id = s.subject_id ∧ sub.condition = "melanoma" ∧
                sub.sex = "M" ∧ sub.response = some "yes")) = false := by
        rw [List.any_eq_false]
        intro s hsmem
        have hnp := List.filter_eq_nil_iff.mp hF s hsmem
        intro hcontra
        exact hnp (Bool.and_elim_left hcontra)
      rw [hccm, hany]
      rfl
    · have hs0 := List.mem_filter.mp (hF ▸ List.mem_singleton_self s0)
      rw [hF]
      have hGle : ((db.subjects.filter fun sub =>
          decide (sub.id = s0.subject_id ∧ sub.condition = "melanoma" ∧
            sub.sex = "M" ∧ sub.response = some "yes")).length ≤ 1) := by
        apply filter_len_le_one db.subjects hb
        intro x hx
        exact (of_decide_eq_true hx).1
      rcases len_le_one_cases _ hGle with hG | ⟨b0, hG⟩
      · have hany : (db.samples.any fun s =>
            decide (s.id = cc.sample_id ∧ s.time_from_treatment_start = 0) &&
              db.subjects.any fun sub =>
                decide (sub.id = s.subject_id ∧ sub.condition = "melanoma" ∧
                  sub.sex = "M" ∧ sub.response = some "yes")) = false := by
          rw [List.any_eq_false]
          intro s hsmem hcontra
          have hps : s ∈ db.samples.filter fun s =>
              decide (s.id = cc.sample_id ∧ s.time_from_treatment_start = 0) :=
            List.mem_filter.mpr ⟨hsmem, Bool.and_elim_left hcontra⟩
          have hseq : s = s0 := List.mem_singleton.mp (hF ▸ hps)
          have hany2 := Bool.and_elim_right hcontra
          rw [hseq] at hany2
          rcases List.any_eq_true.mp hany2 with ⟨sub, hsubm, hsubp⟩
          have : sub ∈ db.subjects.filter fun sub =>
              decide (sub.id = s0.subject_id ∧ sub.condition = "melanoma" ∧
                sub.sex = "M" ∧ sub.response = some "yes") :=
            List.mem_filter.mpr ⟨hsubm, hsubp⟩
          rw [hG] at this
          cases this
        rw [hccm, hany, List.flatMap_cons, hG]
        rfl
      · have hb0 := List.mem_filter.mp (hG ▸ List.mem_singleton_self b0)
        have hany : (db.samples.any fun s =>
            decide (s.id = cc.sample_id ∧ s.time_from_treatment_start = 0) &&
              db.subjects.any fun sub =>
                decide (sub.id = s.subject_id ∧ sub.condition = "melanoma" ∧
                  sub.sex = "M" ∧ sub.response = some "yes")) = true := by
          rw [List.any_eq_true]
          refine ⟨s0, hs0.1, ?_⟩
          rw [Bool.and_eq_true]
          refine ⟨hs0.2, ?_⟩
          rw [List.any_eq_true]
          exact ⟨b0, hb0.1, hb0.2⟩
        rw [hccm, hany, List.flatMap_cons, hG, List.flatMap_nil, List.map_cons]
        rfl
  · rw [if_neg hpop]
    have hccm : ccMatches db cc = false := by
      rw [ccMatches, decide_eq_false hpop, Bool.false_and]
    rw [hccm]
    rfl

theorem bcellCounts_eq (db : DB) (hs : (db.samples.map Sample.id).Nodup)
    (hb : (db.subjects.map Subject.id).Nodup) :
    bcellCounts db = matchingBcell db := by
  rw [bcellCounts, matchingBcell]
  apply flatMap_if_eq_filter_map
  intro cc _
  exact bcell_inner db hs hb cc

/-- C9: `get_avg_bcell_male_responders` returns the arithmetic mean of
the raw b_cell counts of the rows matching (melanoma, sex M, response
"yes", time 0), rounded to 2 decimals; when no row matches it fails (the
empty polars mean is None and `round(None, 2)` raises), and in particular
never returns 0. -/
theorem avg_bcell_spec (db : DB) (hs : (db.samples.map Sample.id).Nodup)
    (hb : (db.subjects.map Subject.id).Nodup) :
    (matchingBcell db = [] → get_avg_bcell_male_responders db = .error typeErrorMsg) ∧
    (matchingBcell db ≠ [] → get_avg_bcell_male_responders db =
      .ok (roundQ 2 (((matchingBcell db).map fun c => (c : ℚ)).sum /
        ((matchingBcell db).length : ℚ)))) := by
  have he := bcellCounts_eq db hs hb
  constructor
  · intro h0
    rw [get_avg_bcell_male_responders, he, h0]
    rfl
  · intro hne
    rw [get_avg_bcell_male_responders, he]
    cases hm : matchingBcell db with
    | nil => exact absurd hm hne
    | cons a t => rfl

def dbC9 : DB :=
  ⟨["P1"],
   [⟨"sub1", "P1", "melanoma", 40, "M", some "miraclib", some "yes"⟩,
    ⟨"sub2", "P1", "melanoma", 50, "F", some "miraclib", some "no"⟩],
   [⟨"s1", "sub1", "PBMC", 0⟩, ⟨"s2", "sub2", "PBMC", 0⟩],
   [⟨"s1", "b_cell", 30⟩, ⟨"s1", "nk_cell", 7⟩, ⟨"s2", "b_cell", 11⟩]⟩

theorem avg_bcell_spec_witness :
    (dbC9.samples.map Sample.id).Nodup ∧ (dbC9.subjects.map Subject.id).Nodup ∧
    ((matchingBcell dbC9 = [] →
        get_avg_bcell_male_responders dbC9 = .error typeErrorMsg) ∧
      (matchingBcell dbC9 ≠ [] → get_avg_bcell_male_responders dbC9 =
        .ok (roundQ 2 (((matchingBcell dbC9).map fun c => (c : ℚ)).sum /
          ((matchingBcell dbC9).length : ℚ))))) :=
  ⟨by decide, by decide, avg_bcell_spec dbC9 (by decide) (by decide)⟩

/- ### C2: the frequency table -/

/-- The unique sample carrying a given id (under the primary-key
invariant). -/
def sampleOf (db : DB) (sid : String) : Sample :=
  (db.samples.find? fun s => decide (s.id = sid)).getD ⟨"", "", "", 0⟩

/-- The unique subject carrying a given id. -/
def subjectOf (db : DB) (bid : String) : Subject :=
  (db.subjects.find? fun b => decide (b.id = bid)).getD ⟨"", "", "", 0, "", none, none⟩

/-- The joined row a CellCount row produces (under referential
integrity). -/
def jrowFor (db : DB) (cc : CellCount) : JRow :=
  ⟨cc.sample_id, cc.population, cc.count,
    (subjectOf db (sampleOf db cc.sample_id).subject_id).project_id,
    (subjectOf db (sampleOf db cc.sample_id).subject_id).condition,
    (subjectOf db (sampleOf db cc.sample_id).subject_id).treatment,
    (sampleOf db cc.sample_id).sample_type⟩

/-- The frequency-table row the claim predicts for one CellCount row:
the metadata of its sample, `total_count` the sum of raw counts over the
cell_counts rows of that sample, and `percentage = round(100*count/total, 2)`. -/
def expectedFreqRow (db : DB) (cc : CellCount) : FreqRow :=
  ⟨cc.sample_id,
    (subjectOf db (sampleOf db cc.sample_id).subject_id).project_id,
    (subjectOf db (sampleOf db cc.sample_id).subject_id).condition,
    (subjectOf db (sampleOf db cc.sample_id).subject_id).treatment,
    (sampleOf db cc.sample_id).sample_type,
    sampleTotal db cc.sample_id, cc.population, cc.count,
    pct cc.count (sampleTotal db cc.sample_id)⟩

theorem joined_eq (db : DB) (hs : (db.samples.map Sample.id).Nodup)
    (hb : (db.subjects.map Subject.id).Nodup)
    (hri : ∀ cc ∈ db.cell_counts, ∃ s ∈ db.samples, s.id = cc.sample_id ∧
      ∃ sub ∈ db.subjects, sub.id = s.subject_id) :
    joinedRows db = db.cell_counts.map (jrowFor db) := by
  rw [joinedRows]
  apply flatMap_eq_map_of
  intro cc hcc
  rcases hri cc hcc with ⟨s, hsmem, hsid, sub, hsubmem, hsubid⟩
  have hF : (db.samples.filter fun x => decide (x.id = cc.sample_id)) = [s] :=
    filter_eq_singleton_of_mem (k := cc.sample_id) hs
      (fun x hx => of_decide_eq_true hx) hsmem (decide_eq_true hsid)
  have hsOf : sampleOf db cc.sample_id = s := by
    rw [sampleOf, find?_eq_of_filter_singleton _ hF]
    rfl
  have hG : (db.subjects.filter fun x => decide (x.id = s.subject_id)) = [sub] :=
    filter_eq_singleton_of_mem (k := s.subject_id) hb
      (fun x hx => of_decide_eq_true hx) hsubmem (decide_eq_true hsubid)
  have hbOf : subjectOf db s.subject_id = sub := by
    rw [subjectOf, find?_eq_of_filter_singleton _ hG]
    rfl
  rw [hF, List.flatMap_cons, List.flatMap_nil, List.append_nil, hG,
    List.map_cons, List.map_nil, jrowFor, hsOf, hbOf]

theorem totalFor_joined (db : DB)
    (hjoined : joinedRows db = db.cell_counts.map (jrowFor db)) (sid : String) :
    totalFor (joinedRows db) sid = sampleTotal db sid := by
  rw [totalFor, hjoined, List.filter_map, List.map_map, sampleTotal]
  rfl

theorem freq_map_eq (db : DB)
    (hjoined : joinedRows db = db.cell_counts.map (jrowFor db)) :
    (joinedRows db).map (freqRowOf (joinedRows db)) =
      db.cell_counts.map (expectedFreqRow db) := by
  nth_rewrite 2 [hjoined]
  rw [List.map_map]
  apply List.map_congr_left
  intro cc _
  show (⟨cc.sample_id,
    (subjectOf db (sampleOf db cc.sample_id).subject_id).project_id,
    (subjectOf db (sampleOf db cc.sample_id).subject_id).condition,
    (subjectOf db (sampleOf db cc.sample_id).subject_id).treatment,
    (sampleOf db cc.sample_id).sample_type,
    totalFor (joinedRows db) cc.sample_id, cc.population, cc.count,
    pct cc.count (totalFor (joinedRows db) cc.sample_id)⟩ : FreqRow) =
      expectedFreqRow db cc
  rw [totalFor_joined db hjoined, expectedFreqRow]

/-- C2: under the store invariants (unique sample and subject ids,
referential integrity), the frequency table consists of exactly one row
per CellCount row — carrying the sample id, the project id, condition and
treatment of its subject, the sample type, `total_count` equal to the sum
of the raw counts of the sample, the population, the raw count, and
`percentage = round(100 * count / total_count, 2)` — and the output is
sorted by sample id, then population name, lexicographically. -/
theorem freq_table_spec (db : DB) (hs : (db.samples.map Sample.id).Nodup)
    (hb : (db.subjects.map Subject.id).Nodup)
    (hri : ∀ cc ∈ db.cell_counts, ∃ s ∈ db.samples, s.id = cc.sample_id ∧
      ∃ sub ∈ db.subjects, sub.id = s.subject_id) :
    (get_frequency_table db).Perm (db.cell_counts.map (expectedFreqRow db)) ∧
    (get_frequency_table db).Pairwise (fun a b =>
      strLtB a.sample b.sample = true ∨
        (a.sample = b.sample ∧ strLe a.population b.population = true)) := by
  have hj := joined_eq db hs hb hri
  have hmapeq := freq_map_eq db hj
  constructor
  · rw [get_frequency_table]
    exact hmapeq ▸ List.perm_insertionSort _ _
  · have hsorted := List.sorted_insertionSort (fun a b => freqLe a b = true)
      ((joinedRows db).map (freqRowOf (joinedRows db)))
    apply List.Pairwise.imp ?_ hsorted
    intro a b hab
    rw [freqLe] at hab
    by_cases hsam : a.sample = b.sample
    · right
      refine ⟨hsam, ?_⟩
      rwa [if_pos hsam] at hab
    · left
      rw [if_neg hsam] at hab
      have hnb : strLe b.sample a.sample = false := by
        cases hback : strLe b.sample a.sample with
        | false => rfl
        | true => exact absurd (strLe_antisymm hab hback) hsam
      rw [strLtB, hab, hnb]
      rfl

def dbC2 : DB :=
  ⟨["P1"],
   [⟨"sub1", "P1", "melanoma", 40, "M", some "miraclib", some "yes"⟩,
    ⟨"sub2", "P1", "healthy", 50, "F", none, none⟩],
   [⟨"s1", "sub1", "PBMC", 0⟩, ⟨"s2", "sub2", "tumor", 7⟩],
   [⟨"s2", "nk_cell", 60⟩, ⟨"s1", "b_cell", 30⟩, ⟨"s1", "nk_cell", 10⟩]⟩

theorem freq_table_spec_witness :
    (dbC2.samples.map Sample.id).Nodup ∧ (dbC2.subjects.map Subject.id).Nodup ∧
    (∀ cc ∈ dbC2.cell_counts, ∃ s ∈ dbC2.samples, s.id = cc.sample_id ∧
      ∃ sub ∈ dbC2.subjects, sub.id = s.subject_id) ∧
    ((get_frequency_table dbC2).Perm (dbC2.cell_counts.map (expectedFreqRow dbC2)) ∧
      (get_frequency_table dbC2).Pairwise (fun a b =>
        strLtB a.sample b.sample = true ∨
          (a.sample = b.sample ∧ strLe a.population b.population = true))) :=
  ⟨by decide, by decide, by decide,
    freq_table_spec dbC2 (by decide) (by decide) (by decide)⟩
